import Mathlib

/-!
A verification development for a small content-publishing backend.

The repository contains three variants of the same service:

* an Express application backed by a JSON file under `/tmp`
  (multer uploads, `authRequired` guard, `/api/posts` routes);
* a serverless handler backed by a process-lifetime cache plus a
  best-effort JSON file (`getAllNews` merge view, `/news` routes);
* a serverless handler backed by Firestore (`limit(200)` reads).

The definitions below are shallow embeddings of those JavaScript
functions.  JavaScript strings are modelled as `String` (operations are
reimplemented over `String.data` so that concrete instances reduce);
timestamps (`Date` values / epoch milliseconds) are modelled as `Int`;
a JSON file on disk is modelled by `FileState`; the external JWT,
Firestore and blob-store primitives are modelled from their documented
interfaces, as noted on each definition.
-/

/-! ## JavaScript string helpers -/

/-- Characters treated as whitespace by the JavaScript `\s` class and
`String.prototype.trim` (ASCII range plus NBSP; more exotic Unicode
space characters are elided from the model). -/
def isJsSpace (c : Char) : Bool :=
  c = ' ' ∨ c = '\t' ∨ c = '\n' ∨ c = '\r' ∨ c = '\x0b' ∨ c = '\x0c' ∨ c = '\xa0'

/-- JavaScript `String.prototype.trim`: strip leading and trailing
whitespace. -/
def jsTrim (s : String) : String :=
  String.mk (((s.data.dropWhile isJsSpace).reverse.dropWhile isJsSpace).reverse)

/-- JavaScript `String(x || "")` applied to an optional string field:
`undefined`/`null` and `""` are falsy and give `""`. -/
def jsOrEmpty : Option String → String
  | none => ""
  | some s => s

/-- JavaScript `x || d` on an optional string: falsy (`undefined`,
`null`, `""`) falls back to the default. -/
def jsOrDefault (d : String) : Option String → String
  | none => d
  | some s => if s = "" then d else s

/-- JavaScript truthiness of an optional string: `undefined`/`null`
and `""` are falsy. -/
def jsTruthy : Option String → Bool
  | none => false
  | some s => s ≠ ""

/-! ## Data model

`NewsItem` is the item shape of the serverless cache+file variant
(`{id, text, source, imageUrl, createdAt}`); `PostItem` is the item
shape of the Express variant (`{id, title, body, sourceUrl, imageUrl,
createdAt}`).  `createdAt` is the epoch time of the stored timestamp
(the code compares items via `new Date(x.createdAt).getTime()`; the
date parsing itself is external and injective on the ISO strings the
code writes, so we carry the parsed value). -/

structure NewsItem where
  id : Option String
  text : String
  source : String
  imageUrl : String
  createdAt : Int
deriving DecidableEq, Repr

structure PostItem where
  id : String
  title : String
  body : String
  sourceUrl : String
  imageUrl : String
  createdAt : Int
deriving DecidableEq, Repr

/-- The state of the JSON backing file as seen by `fs.readFileSync` +
`JSON.parse`: the file may be absent, unreadable (read throws), not
valid JSON (parse throws), or a parsed document whose item-list field
either is an array (`doc (some items)`) or is missing / not an array
(`doc none`). -/
inductive FileState (α : Type) where
  | absent
  | unreadable
  | invalidJson
  | doc (items : Option (List α))
deriving DecidableEq, Repr

/-! ## Serverless cache+file variant: DurableStore and MergeView -/

/-- `readNewsFromFile` of the serverless variant: read `data.json`,
parse it, return `parsed.news` when it is an array; every failure
(absent or unreadable file, invalid JSON, `news` not an array) is
caught and yields `[]`. -/
def readNewsFromFile : FileState NewsItem → List NewsItem
  | .doc (some l) => l
  | _ => []

/-- `writeNewsToFile` of the serverless variant: rewrite the whole
file with `{news: newsArray}`; on a read-only filesystem the write
throws and the failure is swallowed, leaving the file unchanged.
`writable` says whether the deployment filesystem accepts the write. -/
def writeNewsToFile (writable : Bool) (fs : FileState NewsItem)
    (newsArray : List NewsItem) : FileState NewsItem :=
  if writable then .doc (some newsArray) else fs

/-- The deduplicating walk inside `getAllNews`: iterate over the
concatenated list with a `seen` set of ids; an entry whose `id` is
falsy (`undefined`/`null`/`""`, i.e. `!n?.id`) or already seen is
skipped, otherwise it is kept and its id recorded. -/
def mergeDedup : List String → List NewsItem → List NewsItem
  | _, [] => []
  | seen, n :: rest =>
    match n.id with
    | none => mergeDedup seen rest
    | some i =>
      if i = "" ∨ i ∈ seen then mergeDedup seen rest
      else n :: mergeDedup (i :: seen) rest

/-- The comparator of `merged.sort((a, b) => new Date(b.createdAt) -
new Date(a.createdAt))` as the "keep in order" relation: `a` may stay
before `b` when the comparator is `≤ 0`, i.e. `b.createdAt ≤
a.createdAt`. -/
def newsLe (a b : NewsItem) : Bool := b.createdAt ≤ a.createdAt

/-- `getAllNews` of the serverless variant: read the file, take the
runtime cache when it is an array (else `[]`), concatenate cache
before file, deduplicate by first occurrence of each id, and sort by
`createdAt` descending.  `Array.prototype.sort` is required by the
language standard to be stable, and with the consistent comparator
above its output is the unique stable descending sort, which
`List.mergeSort` computes. -/
def getAllNews (runtimeNewsCache : Option (List NewsItem))
    (fs : FileState NewsItem) : List NewsItem :=
  let fileNews := readNewsFromFile fs
  let cacheNews := runtimeNewsCache.getD []
  (mergeDedup [] (cacheNews ++ fileNews)).mergeSort newsLe

/-! ## Express variant: DurableStore -/

/-- `readDB` of the Express variant: `ensureStore()` creates the file
with `{posts: []}` when it is absent, then `JSON.parse(fs.readFileSync
(DATA_PATH))` runs with no try/catch, so an unreadable or non-JSON
file raises to the caller.  The result carries the `posts` field of
the parsed document (`none` when it is missing or not an array). -/
def readDB : FileState PostItem → Except Unit (Option (List PostItem))
  | .absent => .ok (some [])
  | .unreadable => .error ()
  | .invalidJson => .error ()
  | .doc items => .ok items

/-! ## TokenAuthority

`jsonwebtoken`'s `sign`/`verify` primitives are external to the
repository; the spec treats them as collaborators specified only via
their interface. -/

/-- A JWT claim set as produced by `jwt.sign({sub, role}, secret,
{expiresIn: "7d"})`: the library adds `iat` (issue time, seconds) and
`exp = iat + 604800`. -/
structure JwtPayload where
  sub : String
  role : String
  iat : Int
  exp : Int
deriving DecidableEq, Repr

/-- Modelled from the spec: a signed token produced by the external
`jsonwebtoken` primitive — a payload together with a signature
computed by a keyed MAC over the payload.  The MAC itself is abstract
(a parameter `mac` below). -/
structure Jwt where
  payload : JwtPayload
  sig : Nat
deriving DecidableEq, Repr

/-- Modelled from the spec: `jwt.sign({sub, role}, secret, {expiresIn:
"7d"})` — deterministically signs a payload carrying the identity, an
issued-at time, and an expiry 7 days (604800 seconds) later. -/
def jwtSign (mac : String → JwtPayload → Nat) (secret : String)
    (sub role : String) (now : Int) : Jwt :=
  let p : JwtPayload := ⟨sub, role, now, now + 604800⟩
  ⟨p, mac secret p⟩

/-- Modelled from the spec: `jwt.verify(token, secret)` — succeeds and
returns the payload exactly when the signature matches the MAC of the
payload under the shared secret and the token is not expired
(`jsonwebtoken` rejects once the clock reaches `exp`); otherwise it
throws, which the callers turn into an authentication failure
(`none`). -/
def jwtVerifyTok (mac : String → JwtPayload → Nat) (secret : String)
    (now : Int) (t : Jwt) : Option JwtPayload :=
  if t.sig = mac secret t.payload ∧ now < t.payload.exp then some t.payload else none

/-! ## HTTP auth guards

The serverless handlers extract the bearer token with
`auth.match(/^Bearer\s+(.+)$/i)` and then call `jwt.verify`; the
Express variant uses `header.startsWith("Bearer ") ? header.slice(7) :
null`.  The wire-level `jwt.verify` on the extracted token string is
abstracted as an oracle `tokenVerify : String → Option JwtPayload`
(`none` models every throw: bad signature, expired, malformed). -/

/-- The regex `/^Bearer\s+(.+)$/i` applied to the authorization
header: a case-insensitive `Bearer`, at least one whitespace
character, then a non-empty capture extending to the end of the
header.  When the remainder is all whitespace, `\s+` backtracks by one
character so the capture is the final whitespace character.  (Header
values contain no line terminators, so the `.`/`$` newline subtleties
do not arise.) -/
def extractBearer (auth : String) : Option String :=
  let cs := auth.data
  if (cs.take 6).map Char.toLower = "bearer".data then
    let rest := cs.drop 6
    let ws := (rest.takeWhile isJsSpace).length
    if ws = 0 then none
    else if ws < rest.length then some (String.mk (rest.drop ws))
    else if 2 ≤ ws then some (String.mk (rest.drop (ws - 1)))
    else none
  else none

/-- `verifyJWT` of the serverless variants: regex-extract the bearer
token from the `Authorization` header (the header defaults to `""`
when missing) and verify it; any failure yields `{ok: false}`,
modelled as `none`. -/
def verifyJWT (tokenVerify : String → Option JwtPayload) (authHeader : String) :
    Option JwtPayload :=
  match extractBearer authHeader with
  | none => none
  | some t => tokenVerify t

/-- `authRequired` of the Express variant: the token is
`header.slice(7)` when the header starts with the exact string
`"Bearer "`, else `null`; a falsy token (missing header, wrong scheme,
or empty slice) is rejected, then `jwt.verify` runs and a throw maps
to 401. -/
def authRequired (tokenVerify : String → Option JwtPayload) (header : String) :
    Option JwtPayload :=
  if header.data.take 7 = "Bearer ".data then
    let t := String.mk (header.data.drop 7)
    if t = "" then none else tokenVerify t
  else none

/-! ## Serverless cache+file variant: mutating handlers -/

/-- The process state of the serverless cache+file variant: the
module-global `runtimeNewsCache` (`null` before the first write,
modelled as `none`) and the backing file. -/
structure ServerState where
  runtimeNewsCache : Option (List NewsItem)
  file : FileState NewsItem
deriving DecidableEq, Repr

/-- The body of `POST /news` after `JSON.parse`: each field is either
present with a string value or absent/null. -/
structure CreateBody where
  text : Option String
  source : Option String
  imageUrl : Option String
deriving DecidableEq, Repr

/-- The `POST /news` handler of the serverless cache+file variant:
auth guard, then `String(body?.x || "").trim()` normalisation, then
the empty-text check, then the new item is unshifted onto the cache
and prepended to the (re-read) file list.  `newId` stands for the
fresh `makeId()` value and `now` for the creation timestamp.  Returns
the new state, the HTTP status, and the created item if any. -/
def postNews (tokenVerify : String → Option JwtPayload) (newId : String)
    (now : Int) (writable : Bool) (st : ServerState) (authHeader : String)
    (body : CreateBody) : ServerState × Nat × Option NewsItem :=
  match verifyJWT tokenVerify authHeader with
  | none => (st, 401, none)
  | some _ =>
    let text := jsTrim (jsOrEmpty body.text)
    let source := jsTrim (jsOrEmpty body.source)
    let imageUrl := jsTrim (jsOrEmpty body.imageUrl)
    if text = "" then (st, 400, none)
    else
      let item : NewsItem := ⟨some newId, text, source, imageUrl, now⟩
      let cache := item :: st.runtimeNewsCache.getD []
      let fileNews := readNewsFromFile st.file
      (⟨some cache, writeNewsToFile writable st.file (item :: fileNews)⟩, 201, some item)

/-- The `DELETE /news/:id` handler of the serverless cache+file
variant: auth guard, empty-id check, then filter the cache (when it is
an array) and the re-read file list by `n.id !== id` and rewrite the
file. -/
def deleteNews (tokenVerify : String → Option JwtPayload) (writable : Bool)
    (st : ServerState) (authHeader : String) (id : String) : ServerState × Nat :=
  match verifyJWT tokenVerify authHeader with
  | none => (st, 401)
  | some _ =>
    if id = "" then (st, 400)
    else
      let cache := match st.runtimeNewsCache with
        | some c => some (c.filter (fun n => n.id != some id))
        | none => none
      let fileNews := (readNewsFromFile st.file).filter (fun n => n.id != some id)
      (⟨cache, writeNewsToFile writable st.file fileNews⟩, 200)

/-! ## Serverless upload handler (Busboy + blob store) -/

/-- A call forwarded to the external blob store: `put(key, buffer,
{contentType})`. -/
structure BlobCall where
  key : String
  bytes : List UInt8
  contentType : Option String
deriving DecidableEq, Repr

/-- The single file field of a multipart upload as Busboy reports it:
an optional original filename, an optional declared MIME type, and the
accumulated bytes. -/
structure UploadFile where
  filename : Option String
  mimeType : Option String
  content : List UInt8
deriving DecidableEq, Repr

/-- `safeFilename`: `String(name || "image")` with every character
outside `[a-zA-Z0-9._-]` replaced by `_`, truncated to 120. -/
def safeFilename (name : Option String) : String :=
  String.mk (((jsOrDefault "image" name).data.map
    (fun c => if c.isAlphanum ∨ c = '.' ∨ c = '_' ∨ c = '-' then c else '_')).take 120)

/-- `mimeType || undefined` passed as the blob `contentType`. -/
def jsOrNone : Option String → Option String
  | none => none
  | some s => if s = "" then none else some s

/-- The `POST /upload` handler of the serverless variants: auth guard;
no file field → 400; an empty accumulated buffer → the `Empty file`
rejection, caught in `finish` and answered with 500; otherwise the
buffer is forwarded to the blob store under
`uploads/<now>-<safeFilename>` with the declared content type, and the
handler answers 200.  No content-type filtering is performed on this
path.  Returns the HTTP status and the list of blob-store calls
made. -/
def uploadNews (tokenVerify : String → Option JwtPayload) (now : Int)
    (authHeader : String) (file : Option UploadFile) : Nat × List BlobCall :=
  match verifyJWT tokenVerify authHeader with
  | none => (401, [])
  | some _ =>
    match file with
    | none => (400, [])
    | some f =>
      if f.content.length = 0 then (500, [])
      else
        (200, [⟨"uploads/" ++ toString now ++ "-" ++ safeFilename f.filename,
               f.content, jsOrNone f.mimeType⟩])

/-! ## Express variant: multer upload filter and `/api/posts` routes -/

/-- The exact content-type allow-list of the Express variant's
`fileFilter`. -/
def allowedMimes : List String :=
  ["image/jpeg", "image/png", "image/webp", "image/gif"]

/-- `fileFilter(req, file, cb)`: accept exactly the four image MIME
types. -/
def fileFilter (mimetype : String) : Bool := allowedMimes.contains mimetype

/-- A file presented to multer: original name, declared MIME type,
content. -/
structure MulterFile where
  originalname : Option String
  mimetype : String
  content : List UInt8
deriving DecidableEq, Repr

/-- multer's handling of the optional single `image` field:
`fileFilter` runs on the file's headers before any byte is written to
disk, so a disallowed type aborts the request with the filter's error
and nothing stored; an accepted file is then streamed to disk under
the generated name, subject to the 6 MB `fileSize` limit.  The result
is the stored `(filename, bytes)` pair, if any. -/
def multerSingle (storedName : String) (file : Option MulterFile) :
    Except String (Option (String × List UInt8)) :=
  match file with
  | none => .ok none
  | some f =>
    if fileFilter f.mimetype then
      if f.content.length ≤ 6 * 1024 * 1024 then .ok (some (storedName, f.content))
      else .error "LIMIT_FILE_SIZE"
    else .error "Only images allowed"

/-- The `POST /api/posts` handler of the Express variant (after the
`authRequired` and multer middlewares): `if (!title)` rejects only a
missing or empty-string title — no trimming — then `readDB`, unshift
of the new post, `writeDB`.  `mfile` is the stored upload's filename,
if a file accompanied the request.  A `readDB` throw becomes an
Express 500. -/
def apiPostsCreate (tokenVerify : String → Option JwtPayload) (newId : String)
    (now : Int) (header : String) (fs : FileState PostItem)
    (title body sourceUrl : Option String) (mfile : Option String) :
    FileState PostItem × Nat × Option PostItem :=
  match authRequired tokenVerify header with
  | none => (fs, 401, none)
  | some _ =>
    if jsTruthy title = false then (fs, 400, none)
    else
      match readDB fs with
      | .error _ => (fs, 500, none)
      | .ok items =>
        let post : PostItem :=
          ⟨newId, jsOrEmpty title, jsOrEmpty body, jsOrEmpty sourceUrl,
           (match mfile with
            | some fn => "/uploads/" ++ fn
            | none => ""), now⟩
        (.doc (some (post :: items.getD [])), 201, some post)

/-- The `DELETE /api/posts/:id` handler of the Express variant:
`authRequired`, `readDB`, filter `db.posts` by `p.id !== id`,
`writeDB`, and answer `{deleted: before - after}`.  (The best-effort
unlink of a locally stored image is a side effect on the uploads
directory, not on the post store, and is not modelled.) -/
def apiPostsDelete (tokenVerify : String → Option JwtPayload) (header : String)
    (fs : FileState PostItem) (id : String) :
    FileState PostItem × Nat × Option Nat :=
  match authRequired tokenVerify header with
  | none => (fs, 401, none)
  | some _ =>
    match readDB fs with
    | .error _ => (fs, 500, none)
    | .ok items =>
      let posts := items.getD []
      let remaining := posts.filter (fun p => p.id != id)
      (.doc (some remaining), 200, some (posts.length - remaining.length))

/-! ## Firestore variant: list query -/

/-- Modelled from the spec: the Firestore read
`collection("news").orderBy("createdAt", "desc").limit(200).get()` —
the external database returns the collection ordered by `createdAt`
descending, capped server-side at 200 documents. -/
def firestoreListNews (coll : List NewsItem) : List NewsItem :=
  (coll.mergeSort newsLe).take 200


/-- A string of `n` letters `a`; the ids of `manyItems` below. -/
def aStr (n : Nat) : String := String.mk (List.replicate n 'a')

/-- 201 items with pairwise distinct non-empty ids and equal
timestamps. -/
def manyItems : List NewsItem :=
  (List.range 201).map (fun i => ⟨some (aStr (i + 1)), "t", "", "", 0⟩)

/-! ## Lemmas about the deduplicating walk -/

/-- Unfolding equation for the walk at a cons cell. -/
theorem mergeDedup_cons (seen : List String) (n : NewsItem) (rest : List NewsItem) :
    mergeDedup seen (n :: rest) =
      match n.id with
      | none => mergeDedup seen rest
      | some i =>
        if i = "" ∨ i ∈ seen then mergeDedup seen rest
        else n :: mergeDedup (i :: seen) rest := rfl

/-- Every item surviving the deduplicating walk has a non-falsy id
that was not in the initial `seen` set. -/
theorem mem_mergeDedup {m : NewsItem} :
    ∀ (l : List NewsItem) (seen : List String),
      m ∈ mergeDedup seen l → ∃ s, m.id = some s ∧ s ≠ "" ∧ s ∉ seen := by
  intro l
  induction l with
  | nil => intro seen h; simp [mergeDedup] at h
  | cons n rest ih =>
    intro seen h
    rw [mergeDedup_cons] at h
    split at h
    · exact ih seen h
    · rename_i i hid
      split at h
      · exact ih seen h
      · rename_i hskip
        push_neg at hskip
        rcases List.mem_cons.mp h with hm | hm
        · subst hm; exact ⟨i, hid, hskip.1, hskip.2⟩
        · rcases ih _ hm with ⟨s, hs1, hs2, hs3⟩
          exact ⟨s, hs1, hs2, fun hc => hs3 (List.mem_cons_of_mem _ hc)⟩

/-- An id already in the `seen` set never reappears in the walk's
output. -/
theorem filter_mergeDedup_of_mem_seen {x : String} {seen : List String}
    (hx : x ∈ seen) (l : List NewsItem) :
    (mergeDedup seen l).filter (fun m => m.id == some x) = [] := by
  rw [List.filter_eq_nil_iff]
  intro m hm hpm
  rcases mem_mergeDedup l seen hm with ⟨s, hs1, _, hs3⟩
  rw [hs1] at hpm
  simp only [beq_iff_eq, Option.some.injEq] at hpm
  subst hpm
  exact hs3 hx

/-- For a non-empty unseen id, the walk's output contains exactly the
first input occurrence of that id. -/
theorem filter_mergeDedup_eq_find? {x : String} (hx : x ≠ "") :
    ∀ (l : List NewsItem) (seen : List String), x ∉ seen →
      (mergeDedup seen l).filter (fun m => m.id == some x)
        = (l.find? (fun m => m.id == some x)).toList := by
  intro l
  induction l with
  | nil => intro seen _; simp [mergeDedup]
  | cons n rest ih =>
    intro seen hseen
    rw [mergeDedup_cons]
    split
    · rename_i hid
      rw [List.find?_cons_of_neg (p := fun m : NewsItem => m.id == some x) rest
            (by simp [hid])]
      exact ih seen hseen
    · rename_i i hid
      split
      · rename_i hskip
        have hix : i ≠ x := by
          rcases hskip with h | h
          · intro hc; rw [hc] at h; exact hx h
          · intro hc; rw [hc] at h; exact hseen h
        rw [List.find?_cons_of_neg (p := fun m : NewsItem => m.id == some x) rest
              (by simp [hid, hix])]
        exact ih seen hseen
      · rename_i hskip
        push_neg at hskip
        by_cases hix : i = x
        · subst hix
          have hpn : (fun m : NewsItem => m.id == some i) n = true := by simp [hid]
          rw [List.filter_cons_of_pos (p := fun m : NewsItem => m.id == some i) hpn,
              List.find?_cons_of_pos (p := fun m : NewsItem => m.id == some i) rest hpn,
              filter_mergeDedup_of_mem_seen (List.mem_cons_self i seen) rest]
          rfl
        · have hpn : ¬((fun m : NewsItem => m.id == some x) n = true) := by
            simp [hid, hix]
          rw [List.filter_cons_of_neg (p := fun m : NewsItem => m.id == some x) hpn,
              List.find?_cons_of_neg (p := fun m : NewsItem => m.id == some x) rest hpn]
          exact ih (i :: seen) (by
            intro hc
            rcases List.mem_cons.mp hc with h | h
            · exact hix h.symm
            · exact hseen h)

/-- When every input id is non-falsy, fresh w.r.t. `seen`, and the ids
are pairwise distinct, the walk keeps everything. -/
theorem mergeDedup_length :
    ∀ (l : List NewsItem) (seen : List String),
      (∀ n ∈ l, ∃ s, n.id = some s ∧ s ≠ "" ∧ s ∉ seen) →
      (l.map NewsItem.id).Nodup →
      (mergeDedup seen l).length = l.length := by
  intro l
  induction l with
  | nil => intro seen _ _; rfl
  | cons n rest ih =>
    intro seen hall hnd
    rcases hall n (List.mem_cons_self n rest) with ⟨s, hid, hne, hns⟩
    rw [List.map_cons, List.nodup_cons] at hnd
    have hkeep : mergeDedup seen (n :: rest) = n :: mergeDedup (s :: seen) rest := by
      rw [mergeDedup_cons, hid]
      exact if_neg (by push_neg; exact ⟨hne, hns⟩)
    rw [hkeep, List.length_cons, List.length_cons]
    congr 1
    apply ih (s :: seen) ?_ hnd.2
    intro m hm
    rcases hall m (List.mem_cons_of_mem n hm) with ⟨s', hs1, hs2, hs3⟩
    refine ⟨s', hs1, hs2, ?_⟩
    intro hc
    rcases List.mem_cons.mp hc with h | h
    · subst h
      exact hnd.1 (by rw [hid, ← hs1]; exact List.mem_map_of_mem NewsItem.id hm)
    · exact hs3 h

/-- The comparator relation is transitive. -/
theorem newsLe_trans : ∀ a b c : NewsItem,
    newsLe a b = true → newsLe b c = true → newsLe a c = true := by
  intro a b c h1 h2
  simp only [newsLe, decide_eq_true_eq] at h1 h2 ⊢
  omega

/-- The comparator relation is total. -/
theorem newsLe_total : ∀ a b : NewsItem, (newsLe a b || newsLe b a) = true := by
  intro a b
  simp only [newsLe, Bool.or_eq_true, decide_eq_true_eq]
  omega

/-! ## Claim theorems: the merge view -/

/-- C1.  Precedence law: for every cache state and file snapshot, if a
non-empty id `x` occurs in both tiers, the merged `list()` result
contains exactly one item with id `x`, namely the cache copy (the
first cache occurrence, as `find?` computes it): the walk over the
cache-before-store concatenation keeps the first occurrence of each id
and discards every later duplicate, and the final sort only permutes. -/
theorem getAllNews_cache_precedence (cache file : List NewsItem) (x : String)
    (c : NewsItem) (hx : x ≠ "")
    (hc : cache.find? (fun m => m.id == some x) = some c)
    (hboth : ∃ f ∈ file, f.id = some x) :
    (getAllNews (some cache) (FileState.doc (some file))).filter
        (fun m => m.id == some x) = [c] := by
  have hgan : getAllNews (some cache) (FileState.doc (some file))
      = (mergeDedup [] (cache ++ file)).mergeSort newsLe := rfl
  have hfind : (cache ++ file).find? (fun m => m.id == some x) = some c := by
    rw [List.find?_append, hc]; rfl
  have hfd := filter_mergeDedup_eq_find? hx (cache ++ file) [] (List.not_mem_nil x)
  rw [hfind] at hfd
  have hfd2 : (mergeDedup [] (cache ++ file)).filter (fun m => m.id == some x)
      = [c] := by rw [hfd]; rfl
  have hperm := (List.mergeSort_perm (mergeDedup [] (cache ++ file)) newsLe).filter
      (fun m => m.id == some x)
  rw [hfd2] at hperm
  rw [hgan]
  exact List.perm_singleton.mp hperm

/-- C1 witness: with id `"i"` in both tiers carrying different field
values (and the durable copy even newer), `list()` keeps exactly the
cache copy. -/
theorem getAllNews_cache_precedence_witness :
    ("i" : String) ≠ "" ∧
    (getAllNews (some [⟨some "i", "from cache", "", "", 5⟩])
        (FileState.doc (some [⟨some "i", "from file", "", "", 9⟩]))).filter
        (fun m => m.id == some "i") = [⟨some "i", "from cache", "", "", 5⟩] :=
  ⟨by decide,
   getAllNews_cache_precedence [⟨some "i", "from cache", "", "", 5⟩]
     [⟨some "i", "from file", "", "", 9⟩] "i" ⟨some "i", "from cache", "", "", 5⟩
     (by decide) (by decide) (by decide)⟩

/-- C2.  For every cache state and file snapshot, `list()` is sorted
by `createdAt` descending, and items with equal `createdAt` keep the
relative order established by the deduplicating walk (cache items
before durable-store items): the sort is stable. -/
theorem getAllNews_sorted_desc_stable (cv : Option (List NewsItem))
    (fs : FileState NewsItem) :
    List.Sorted (fun a b : NewsItem => b.createdAt ≤ a.createdAt) (getAllNews cv fs) ∧
    ∀ t : Int,
      (getAllNews cv fs).filter (fun m => m.createdAt == t)
        = (mergeDedup [] (cv.getD [] ++ readNewsFromFile fs)).filter
            (fun m => m.createdAt == t) := by
  have hgan : getAllNews cv fs
      = (mergeDedup [] (cv.getD [] ++ readNewsFromFile fs)).mergeSort newsLe := rfl
  constructor
  · rw [hgan]
    have h := List.sorted_mergeSort newsLe_trans newsLe_total
        (mergeDedup [] (cv.getD [] ++ readNewsFromFile fs))
    exact h.imp (fun hab => of_decide_eq_true hab)
  · intro t
    rw [hgan]
    have hall : ∀ a ∈ (mergeDedup [] (cv.getD [] ++ readNewsFromFile fs)).filter
          (fun m => m.createdAt == t),
        ∀ b ∈ (mergeDedup [] (cv.getD [] ++ readNewsFromFile fs)).filter
          (fun m => m.createdAt == t), newsLe a b = true := by
      intro a ha b hb
      have ha' := List.of_mem_filter ha
      have hb' := List.of_mem_filter hb
      simp only [beq_iff_eq] at ha' hb'
      simp only [newsLe, ha', hb', decide_eq_true_eq]
      exact le_refl t
    have hpw := List.pairwise_of_forall_mem_list hall
    have hsub := List.sublist_mergeSort newsLe_trans newsLe_total hpw
        (List.filter_sublist (mergeDedup [] (cv.getD [] ++ readNewsFromFile fs)))
    have hsub2 := List.Sublist.filter (fun m : NewsItem => m.createdAt == t) hsub
    have hidem : ((mergeDedup [] (cv.getD [] ++ readNewsFromFile fs)).filter
          (fun m : NewsItem => m.createdAt == t)).filter
          (fun m : NewsItem => m.createdAt == t)
        = (mergeDedup [] (cv.getD [] ++ readNewsFromFile fs)).filter
          (fun m : NewsItem => m.createdAt == t) :=
      List.filter_eq_self.mpr (fun a ha =>
        List.of_mem_filter (p := fun m : NewsItem => m.createdAt == t) ha)
    rw [hidem] at hsub2
    have hlen := ((List.mergeSort_perm
        (mergeDedup [] (cv.getD [] ++ readNewsFromFile fs)) newsLe).filter
        (fun m : NewsItem => m.createdAt == t)).length_eq
    exact (hsub2.eq_of_length hlen.symm).symm

/-- C10.  Implicit invariant of the merge: any entry whose id is
absent/null (`none`) or the empty string is excluded from `list()`
output, whatever its other fields: the deduplicating walk skips falsy
ids entirely. -/
theorem getAllNews_skips_idless (cv : Option (List NewsItem))
    (fs : FileState NewsItem) (n : NewsItem)
    (hn : n.id = none ∨ n.id = some "") : n ∉ getAllNews cv fs := by
  intro hmem
  have hgan : getAllNews cv fs
      = (mergeDedup [] (cv.getD [] ++ readNewsFromFile fs)).mergeSort newsLe := rfl
  rw [hgan, List.mem_mergeSort] at hmem
  rcases mem_mergeDedup _ _ hmem with ⟨s, hs1, hs2, _⟩
  rcases hn with h | h
  · rw [h] at hs1; exact Option.noConfusion hs1
  · rw [h] at hs1; exact hs2 (Option.some.inj hs1).symm

/-- C10 witness: an id-less entry present in both tiers, with the
newest `createdAt` in sight, still does not appear in `list()`. -/
theorem getAllNews_skips_idless_witness :
    ((⟨none, "no id", "", "", 99⟩ : NewsItem).id = none ∨
      (⟨none, "no id", "", "", 99⟩ : NewsItem).id = some "") ∧
    (⟨none, "no id", "", "", 99⟩ : NewsItem) ∉
      getAllNews (some [⟨none, "no id", "", "", 99⟩])
        (FileState.doc (some [⟨none, "no id", "", "", 99⟩])) :=
  ⟨Or.inl rfl,
   getAllNews_skips_idless (some [⟨none, "no id", "", "", 99⟩])
     (FileState.doc (some [⟨none, "no id", "", "", 99⟩]))
     ⟨none, "no id", "", "", 99⟩ (Or.inl rfl)⟩


/-- C8 counterexample: the cache+file variant's `list()` applies no
cap — with 201 distinct-id items stored in the file it returns all
201 items, exceeding the claimed fixed maximum of 200. -/
theorem getAllNews_uncapped_201 :
    200 < (getAllNews none (FileState.doc (some manyItems))).length := by
  have hgan : getAllNews none (FileState.doc (some manyItems))
      = (mergeDedup [] ([] ++ manyItems)).mergeSort newsLe := rfl
  have h1 : ∀ n ∈ manyItems, ∃ s, n.id = some s ∧ s ≠ "" ∧ s ∉ ([] : List String) := by
    intro n hn
    simp only [manyItems, List.mem_map] at hn
    obtain ⟨i, _, rfl⟩ := hn
    refine ⟨aStr (i + 1), rfl, ?_, List.not_mem_nil _⟩
    intro hc
    have hlen := congrArg (fun s : String => s.data.length) hc
    simp [aStr] at hlen
  have h2 : (manyItems.map NewsItem.id).Nodup := by
    simp only [manyItems, List.map_map]
    apply List.Nodup.map ?_ (List.nodup_range 201)
    intro a b hab
    simp only [Function.comp] at hab
    have hsome : some (aStr (a + 1)) = some (aStr (b + 1)) := hab
    have hlen := congrArg (fun s : Option String =>
        (s.getD "").data.length) hsome
    simp [aStr] at hlen
    omega
  rw [hgan, List.length_mergeSort, List.nil_append,
      mergeDedup_length manyItems [] h1 h2]
  simp [manyItems]

/-- C8 (amended).  The Firestore-backed variant's list operation is
capped: its query reads at most 200 documents, so the returned
sequence never exceeds 200 items. -/
theorem firestore_list_capped (coll : List NewsItem) :
    (firestoreListNews coll).length ≤ 200 :=
  List.length_take_le 200 (coll.mergeSort newsLe)

/-! ## Claim theorems: auth guard, durable store, tokens -/

/-- Removing by id from a list with pairwise-distinct ids removes one
element when the id is present and none otherwise. -/
theorem length_sub_filter_ne :
    ∀ (posts : List PostItem) (id : String),
      (posts.map PostItem.id).Nodup →
      posts.length - (posts.filter (fun p => p.id != id)).length
        = if id ∈ posts.map PostItem.id then 1 else 0 := by
  intro posts
  induction posts with
  | nil => intro id _; simp
  | cons p rest ih =>
    intro id hnd
    rw [List.map_cons, List.nodup_cons] at hnd
    by_cases hpe : p.id = id
    · subst hpe
      have hfeq : rest.filter (fun q => q.id != p.id) = rest :=
        List.filter_eq_self.mpr (fun a ha => bne_iff_ne.mpr (fun hc =>
          hnd.1 (by rw [← hc]; exact List.mem_map_of_mem PostItem.id ha)))
      rw [List.filter_cons_of_neg (p := fun q : PostItem => q.id != p.id) (by simp),
          hfeq]
      simp
    · have hpe' : ¬(id = p.id) := fun hc => hpe hc.symm
      rw [List.filter_cons_of_pos (p := fun q : PostItem => q.id != id)
            (by simp [hpe])]
      have hle := List.length_filter_le (fun q : PostItem => q.id != id) rest
      have hih := ih id hnd.2
      simp only [List.length_cons, List.map_cons, List.mem_cons]
      by_cases hm : id ∈ rest.map PostItem.id
      · rw [if_pos (Or.inr hm)]
        rw [if_pos hm] at hih
        omega
      · rw [if_neg (by rintro (h | h); exact hpe' h; exact hm h)]
        rw [if_neg hm] at hih
        omega

/-- C3.  Every mutating operation — create, delete, upload, in both
the serverless and the Express variants — answers 401 when its auth
guard fails (missing, malformed, invalid-signature or expired
credential, i.e. the guard yields `none`), leaves the runtime cache
and the backing file exactly as they were, and forwards nothing to the
blob store. -/
theorem mutating_requires_auth
    (tv tv2 : String → Option JwtPayload) (auth header : String)
    (st : ServerState) (body : CreateBody) (newId : String) (now : Int)
    (writable : Bool) (id : String) (ufile : Option UploadFile)
    (fs : FileState PostItem) (title b src : Option String)
    (mfile : Option String)
    (h1 : verifyJWT tv auth = none) (h2 : authRequired tv2 header = none) :
    postNews tv newId now writable st auth body = (st, 401, none) ∧
    deleteNews tv writable st auth id = (st, 401) ∧
    uploadNews tv now auth ufile = (401, []) ∧
    apiPostsCreate tv2 newId now header fs title b src mfile = (fs, 401, none) ∧
    apiPostsDelete tv2 header fs id = (fs, 401, none) := by
  refine ⟨?_, ?_, ?_, ?_, ?_⟩ <;>
    simp [postNews, deleteNews, uploadNews, apiPostsCreate, apiPostsDelete, h1, h2]

/-- C3 witness: with no `Authorization` header (the empty header the
code defaults to) every mutating operation 401s and changes nothing. -/
theorem mutating_requires_auth_witness :
    verifyJWT (fun _ => none) "" = none ∧
    postNews (fun _ => none) "n1" 0 true ⟨none, FileState.absent⟩ ""
        ⟨some "hello", none, none⟩
      = (⟨none, FileState.absent⟩, 401, none) ∧
    deleteNews (fun _ => none) true ⟨none, FileState.absent⟩ "" "x"
      = (⟨none, FileState.absent⟩, 401) ∧
    uploadNews (fun _ => none) 0 "" (some ⟨some "a.png", some "image/png", [1]⟩)
      = (401, []) ∧
    apiPostsCreate (fun _ => none) "n1" 0 "" FileState.absent
        (some "T") none none none
      = (FileState.absent, 401, none) ∧
    apiPostsDelete (fun _ => none) "" FileState.absent "x"
      = (FileState.absent, 401, none) :=
  ⟨rfl,
   mutating_requires_auth (fun _ => none) (fun _ => none) "" ""
     ⟨none, FileState.absent⟩ ⟨some "hello", none, none⟩ "n1" 0 true "x"
     (some ⟨some "a.png", some "image/png", [1]⟩) FileState.absent
     (some "T") none none none rfl rfl⟩

/-- C4 counterexample: the Express variant's `readDB` is not
fail-soft — on a backing file holding invalid JSON it raises to its
caller instead of returning an empty sequence. -/
theorem readDB_invalid_json_raises :
    readDB FileState.invalidJson = Except.error () := rfl

/-- C4 (amended).  The serverless variant's `readNewsFromFile` is
total and returns the empty sequence on every failure (absent or
unreadable file, invalid JSON, `news` field not an array); the Express
variant's `readDB` creates the backing file with an empty list when it
is absent, but propagates an error on an unreadable or non-JSON
file. -/
theorem readAll_failure_behavior :
    readNewsFromFile FileState.absent = [] ∧
    readNewsFromFile FileState.unreadable = [] ∧
    readNewsFromFile FileState.invalidJson = [] ∧
    readNewsFromFile (FileState.doc none) = [] ∧
    (∀ l, readNewsFromFile (FileState.doc (some l)) = l) ∧
    readDB FileState.absent = Except.ok (some []) ∧
    readDB FileState.unreadable = Except.error () ∧
    readDB FileState.invalidJson = Except.error () :=
  ⟨rfl, rfl, rfl, rfl, fun _ => rfl, rfl, rfl, rfl⟩

/-- C9.  Token round trip: a credential issued for an identity
verifies successfully at any time before its expiry (7 days = 604800
seconds after issuance) and yields the original identity; a credential
whose signature does not match the MAC under the shared secret, or
whose expiry has passed, fails verification. -/
theorem jwt_round_trip_and_rejection (mac : String → JwtPayload → Nat)
    (secret sub role : String) (issuedAt checkTime : Int)
    (hwin : checkTime < issuedAt + 604800) :
    jwtVerifyTok mac secret checkTime (jwtSign mac secret sub role issuedAt)
      = some ⟨sub, role, issuedAt, issuedAt + 604800⟩ ∧
    (∀ t : Jwt, t.sig ≠ mac secret t.payload →
      jwtVerifyTok mac secret checkTime t = none) ∧
    (∀ (t : Jwt) (now : Int), t.payload.exp ≤ now →
      jwtVerifyTok mac secret now t = none) := by
  refine ⟨?_, ?_, ?_⟩
  · simp [jwtVerifyTok, jwtSign, hwin]
  · intro t ht
    simp [jwtVerifyTok, ht]
  · intro t now h
    rw [jwtVerifyTok, if_neg]
    rintro ⟨_, h2⟩
    omega

/-- C9 witness: a concrete MAC, identity and clock inside the validity
window round-trip to the original identity. -/
theorem jwt_round_trip_and_rejection_witness :
    ((3 : Int) < 0 + 604800) ∧
    jwtVerifyTok (fun s p => s.length + p.sub.length) "secret" 3
        (jwtSign (fun s p => s.length + p.sub.length) "secret" "admin" "admin" 0)
      = some ⟨"admin", "admin", 0, 0 + 604800⟩ :=
  ⟨by decide,
   (jwt_round_trip_and_rejection (fun s p => s.length + p.sub.length)
     "secret" "admin" "admin" 0 3 (by decide)).1⟩

/-- C5.  Delete round trip, in both variants.  Express variant: from
any prior store whose ids are pairwise distinct, creating a fresh item
and then deleting its id restores the store to exactly the prior
items, and the count answered by delete is 1 for an existing id and 0
for a nonexistent one.  Serverless variant: creating a fresh item and
then deleting its id restores `list()` to exactly its prior value. -/
theorem create_delete_round_trip
    (tv tv2 : String → Option JwtPayload) (auth header : String)
    (pl pl2 : JwtPayload) (posts : List PostItem) (newId : String) (now : Int)
    (title b src : Option String) (mfile : Option String) (id : String)
    (cv : Option (List NewsItem)) (fsn : FileState NewsItem)
    (body : CreateBody) (nid : String)
    (hauth2 : authRequired tv2 header = some pl2)
    (hauthS : verifyJWT tv auth = some pl)
    (htitle : jsTruthy title = true)
    (hfresh : ∀ p ∈ posts, p.id ≠ newId)
    (hnd : (posts.map PostItem.id).Nodup)
    (htext : jsTrim (jsOrEmpty body.text) ≠ "")
    (hnid : nid ≠ "")
    (hfreshC : ∀ n ∈ cv.getD [], n.id ≠ some nid)
    (hfreshF : ∀ n ∈ readNewsFromFile fsn, n.id ≠ some nid) :
    (∃ post : PostItem, post.id = newId ∧
      apiPostsCreate tv2 newId now header (FileState.doc (some posts))
          title b src mfile
        = (FileState.doc (some (post :: posts)), 201, some post) ∧
      apiPostsDelete tv2 header (FileState.doc (some (post :: posts))) newId
        = (FileState.doc (some posts), 200, some 1)) ∧
    (apiPostsDelete tv2 header (FileState.doc (some posts)) id).2.2
      = some (if id ∈ posts.map PostItem.id then 1 else 0) ∧
    getAllNews
        (deleteNews tv true
          (postNews tv nid now true ⟨cv, fsn⟩ auth body).1 auth nid).1.runtimeNewsCache
        (deleteNews tv true
          (postNews tv nid now true ⟨cv, fsn⟩ auth body).1 auth nid).1.file
      = getAllNews cv fsn := by
  refine ⟨⟨⟨newId, jsOrEmpty title, jsOrEmpty b, jsOrEmpty src,
      (match mfile with
       | some fn => "/uploads/" ++ fn
       | none => ""), now⟩, rfl, ?_, ?_⟩, ?_, ?_⟩
  · simp [apiPostsCreate, hauth2, htitle, readDB]
  · have hfeq : posts.filter (fun p => p.id != newId) = posts :=
      List.filter_eq_self.mpr (fun a ha => bne_iff_ne.mpr (hfresh a ha))
    simp only [apiPostsDelete, hauth2, readDB, Option.getD_some]
    rw [List.filter_cons_of_neg (p := fun p : PostItem => p.id != newId)
          (by simp), hfeq]
    simp
  · simp only [apiPostsDelete, hauth2, readDB, Option.getD_some]
    rw [length_sub_filter_ne posts id hnd]
  · have hcf : (cv.getD []).filter (fun n => n.id != some nid) = cv.getD [] :=
      List.filter_eq_self.mpr (fun a ha => bne_iff_ne.mpr (hfreshC a ha))
    have hff : (readNewsFromFile fsn).filter (fun n => n.id != some nid)
        = readNewsFromFile fsn :=
      List.filter_eq_self.mpr (fun a ha => bne_iff_ne.mpr (hfreshF a ha))
    have hpost : (postNews tv nid now true ⟨cv, fsn⟩ auth body).1
        = ⟨some (⟨some nid, jsTrim (jsOrEmpty body.text),
              jsTrim (jsOrEmpty body.source), jsTrim (jsOrEmpty body.imageUrl),
              now⟩ :: cv.getD []),
           FileState.doc (some (⟨some nid, jsTrim (jsOrEmpty body.text),
              jsTrim (jsOrEmpty body.source), jsTrim (jsOrEmpty body.imageUrl),
              now⟩ :: readNewsFromFile fsn))⟩ := by
      simp [postNews, hauthS, htext, writeNewsToFile]
    rw [hpost]
    have hdel : deleteNews tv true
        ⟨some (⟨some nid, jsTrim (jsOrEmpty body.text),
            jsTrim (jsOrEmpty body.source), jsTrim (jsOrEmpty body.imageUrl),
            now⟩ :: cv.getD []),
         FileState.doc (some (⟨some nid, jsTrim (jsOrEmpty body.text),
            jsTrim (jsOrEmpty body.source), jsTrim (jsOrEmpty body.imageUrl),
            now⟩ :: readNewsFromFile fsn))⟩ auth nid
        = (⟨some (cv.getD []), FileState.doc (some (readNewsFromFile fsn))⟩, 200) := by
      simp [deleteNews, hauthS, hnid, writeNewsToFile, readNewsFromFile, hcf, hff]
      intro a ha
      exact hfreshF a ha
    rw [hdel]
    rfl

/-- C5 witness: a one-item store, a fresh id, and a hit/miss delete
count. -/
theorem create_delete_round_trip_witness :
    (apiPostsDelete (fun _ => some ⟨"admin", "admin", 0, 604800⟩) "Bearer t"
        (FileState.doc (some [⟨"a", "T", "", "", "", 3⟩])) "a").2.2 = some 1 :=
  ((create_delete_round_trip
      (fun _ => some ⟨"admin", "admin", 0, 604800⟩)
      (fun _ => some ⟨"admin", "admin", 0, 604800⟩)
      "Bearer t" "Bearer t"
      ⟨"admin", "admin", 0, 604800⟩ ⟨"admin", "admin", 0, 604800⟩
      [⟨"a", "T", "", "", "", 3⟩] "b" 7 (some "T") none none none "a"
      (some [⟨some "c1", "x", "", "", 1⟩])
      (FileState.doc (some [⟨some "f1", "y", "", "", 2⟩]))
      ⟨some " hi ", none, none⟩ "n"
      (by decide) (by decide) (by decide) (by decide) (by decide)
      (by decide) (by decide) (by decide) (by decide)).2.1).trans (by decide)

/-- C6 counterexample: in the Express variant a whitespace-only title
— empty after trimming — is accepted: the create answers 201 and
writes an item whose title is the untrimmed whitespace, where the
claim demands a 400 `ValidationError` and no write. -/
theorem express_create_accepts_whitespace_title :
    jsTrim " " = "" ∧
    apiPostsCreate (fun _ => some ⟨"admin", "admin", 0, 604800⟩) "p1" 0
        "Bearer t" (FileState.doc (some [])) (some " ") none none none
      = (FileState.doc (some [⟨"p1", " ", "", "", "", 0⟩]), 201,
         some ⟨"p1", " ", "", "", "", 0⟩) := by
  constructor
  · rfl
  · decide

/-- C6 (amended).  Serverless variant: a text empty after trimming
(absent, empty, or whitespace-only) is rejected with 400 and nothing
is written, and a text non-empty after trimming creates the item.
Express variant: only an absent or empty-string title is rejected (no
trimming is applied), and any truthy title — including whitespace-only
— creates an item. -/
theorem create_validation_behavior
    (tv tv2 : String → Option JwtPayload) (auth header : String)
    (pl pl2 : JwtPayload) (st : ServerState) (body : CreateBody)
    (newId : String) (now : Int) (writable : Bool) (posts : List PostItem)
    (title b src : Option String) (mfile : Option String)
    (hauthS : verifyJWT tv auth = some pl)
    (hauth2 : authRequired tv2 header = some pl2) :
    (jsTrim (jsOrEmpty body.text) = "" →
      postNews tv newId now writable st auth body = (st, 400, none)) ∧
    (jsTrim (jsOrEmpty body.text) ≠ "" →
      (postNews tv newId now writable st auth body).2
        = (201, some ⟨some newId, jsTrim (jsOrEmpty body.text),
            jsTrim (jsOrEmpty body.source), jsTrim (jsOrEmpty body.imageUrl),
            now⟩)) ∧
    (jsTruthy title = false →
      apiPostsCreate tv2 newId now header (FileState.doc (some posts))
          title b src mfile
        = (FileState.doc (some posts), 400, none)) ∧
    (jsTruthy title = true →
      (apiPostsCreate tv2 newId now header (FileState.doc (some posts))
          title b src mfile).2.1 = 201) := by
  refine ⟨?_, ?_, ?_, ?_⟩
  · intro h; simp [postNews, hauthS, h]
  · intro h; simp [postNews, hauthS, h]
  · intro h; simp [apiPostsCreate, hauth2, h]
  · intro h; simp [apiPostsCreate, hauth2, h, readDB]

/-- C6 witness: an absent text 400s without a write in the serverless
variant, and an empty-string title 400s in the Express variant. -/
theorem create_validation_behavior_witness :
    jsTrim (jsOrEmpty (none : Option String)) = "" ∧
    postNews (fun _ => some ⟨"admin", "admin", 0, 604800⟩) "p1" 0 true
        ⟨none, FileState.absent⟩ "Bearer t" ⟨none, none, none⟩
      = (⟨none, FileState.absent⟩, 400, none) ∧
    apiPostsCreate (fun _ => some ⟨"admin", "admin", 0, 604800⟩) "p1" 0
        "Bearer t" (FileState.doc (some [])) (some "") none none none
      = (FileState.doc (some []), 400, none) :=
  ⟨rfl,
   (create_validation_behavior
     (fun _ => some ⟨"admin", "admin", 0, 604800⟩)
     (fun _ => some ⟨"admin", "admin", 0, 604800⟩)
     "Bearer t" "Bearer t" ⟨"admin", "admin", 0, 604800⟩
     ⟨"admin", "admin", 0, 604800⟩ ⟨none, FileState.absent⟩
     ⟨none, none, none⟩ "p1" 0 true [] (some "") none none none
     (by decide) (by decide)).1 rfl,
   (create_validation_behavior
     (fun _ => some ⟨"admin", "admin", 0, 604800⟩)
     (fun _ => some ⟨"admin", "admin", 0, 604800⟩)
     "Bearer t" "Bearer t" ⟨"admin", "admin", 0, 604800⟩
     ⟨"admin", "admin", 0, 604800⟩ ⟨none, FileState.absent⟩
     ⟨none, none, none⟩ "p1" 0 true [] (some "") none none none
     (by decide) (by decide)).2.2.1 (by decide)⟩

/-- C7 counterexample: the serverless Busboy upload path applies no
content-type filter — an authenticated `text/plain` upload is
forwarded in full to the blob store and answered 200, where the claim
demands an `UnsupportedMediaType` failure before any bytes are
forwarded. -/
theorem busboy_upload_forwards_any_type :
    uploadNews (fun _ => some ⟨"admin", "admin", 0, 604800⟩) 0 "Bearer t"
        (some ⟨some "a.txt", some "text/plain", [1]⟩)
      = (200, [⟨"uploads/0-a.txt", [1], some "text/plain"⟩]) := by
  decide

/-- C7 (amended).  The Express variant's multer `fileFilter` enforces
the allow-list: a file whose declared MIME type is not exactly one of
`image/jpeg`, `image/png`, `image/webp`, `image/gif` is rejected with
the filter's error before anything is stored, and a file declaring one
of the four types passes the filter (and is stored, under the size
cap).  The serverless Busboy path applies no such filter. -/
theorem multer_mime_allowlist (f : MulterFile) (n : String) :
    (f.mimetype ∉ allowedMimes →
      multerSingle n (some f) = Except.error "Only images allowed") ∧
    (f.mimetype ∈ allowedMimes → f.content.length ≤ 6 * 1024 * 1024 →
      multerSingle n (some f) = Except.ok (some (n, f.content))) := by
  constructor
  · intro h
    have hff : fileFilter f.mimetype = false := by
      cases hb : fileFilter f.mimetype
      · rfl
      · exact absurd (List.elem_iff.mp hb) h
    simp [multerSingle, hff]
  · intro h hlen
    have hff : fileFilter f.mimetype = true := List.elem_iff.mpr h
    simp [multerSingle, hff, hlen]

/-- C7 witness: `text/plain` is rejected before storage and
`image/jpeg` passes the filter. -/
theorem multer_mime_allowlist_witness :
    ("text/plain" ∉ allowedMimes) ∧
    multerSingle "k" (some ⟨some "a.txt", "text/plain", [1]⟩)
      = Except.error "Only images allowed" ∧
    ("image/jpeg" ∈ allowedMimes) ∧
    multerSingle "k" (some ⟨some "a.jpg", "image/jpeg", [1]⟩)
      = Except.ok (some ("k", [1])) :=
  ⟨by decide,
   (multer_mime_allowlist ⟨some "a.txt", "text/plain", [1]⟩ "k").1 (by decide),
   by decide,
   (multer_mime_allowlist ⟨some "a.jpg", "image/jpeg", [1]⟩ "k").2
     (by decide) (by decide)⟩
